import Mathlib

/-!
Verification of the Blogicum blog application's visibility, authorization
and pagination logic (`blog/views.py`, `blog/mixins.py`) against its
natural-language specification.  Django models, querysets and the
`Paginator` are shallowly embedded as pure functions over an explicit
in-memory store; each view becomes a function from the store and the
request parameters to a result (and, for mutating views, a new store).
-/

namespace Blogicum

/-- Modelled from the spec: `User` has an id and a unique username
(the identity provider supplies `id, username, isAuthenticated`;
`django.contrib.auth` is outside `src/`).  Authenticated users are
represented directly; an anonymous viewer is `Option.none` at use sites. -/
structure User where
  id : Nat
  username : String
deriving DecidableEq, Repr

/-- Modelled from the spec and `migrations/0003`: `Category` has `title`,
unique `slug`, `is_published` (default true) and `created_at`
(`blog/models.py` itself is outside `src/`). -/
structure Category where
  id : Nat
  title : String
  slug : String
  is_published : Bool
  created_at : Int
deriving DecidableEq, Repr

/-- Modelled from the spec: `Location` has `name`, `is_published`,
`created_at`. -/
structure Location where
  id : Nat
  name : String
  is_published : Bool
  created_at : Int
deriving DecidableEq, Repr

/-- Modelled from the spec and `admin.py`'s `PostAdmin.list_display`:
`Post` has `title`, `text`, `pub_date`, required `author`, optional
`category` and `location`, `is_published`, `created_at`.  Foreign keys
are stored as ids; times are integers. -/
structure Post where
  id : Nat
  title : String
  text : String
  pub_date : Int
  authorId : Nat
  categoryId : Option Nat
  locationId : Option Nat
  is_published : Bool
  created_at : Int
deriving DecidableEq, Repr

/-- Modelled from the spec: `Comment` has `text`, required `author` and
`post`, `created_at`. -/
structure Comment where
  id : Nat
  text : String
  authorId : Nat
  postId : Nat
  created_at : Int
deriving DecidableEq, Repr

/-- The backing data store: the tables the views query. -/
structure Store where
  users : List User
  categories : List Category
  posts : List Post
  comments : List Comment
deriving DecidableEq, Repr

/-- `Post.objects.get(pk=pid)` as an optional lookup. -/
def findPost (s : Store) (pid : Nat) : Option Post :=
  s.posts.find? (fun p => p.id == pid)

/-- `Category.objects.get(pk=cid)` as an optional lookup. -/
def findCategoryById (s : Store) (cid : Nat) : Option Category :=
  s.categories.find? (fun c => c.id == cid)

/-- `User.objects.get(username=u)` as an optional lookup. -/
def findUserByUsername (s : Store) (u : String) : Option User :=
  s.users.find? (fun x => x.username == u)

/-- Primary keys are unique and every category referenced by a post
exists: the integrity guarantees Django's database layer enforces. -/
def Store.wf (s : Store) : Prop :=
  (s.users.map User.id).Nodup ∧
  (s.users.map User.username).Nodup ∧
  (s.categories.map Category.id).Nodup ∧
  (s.categories.map Category.slug).Nodup ∧
  (s.posts.map Post.id).Nodup ∧
  (s.comments.map Comment.id).Nodup ∧
  (∀ p ∈ s.posts, ∀ cid, p.categoryId = some cid →
    ∃ c ∈ s.categories, c.id = cid)

instance (s : Store) : Decidable s.wf := by
  unfold Store.wf
  infer_instance

/-- The Django ORM condition `category__is_published=True` on a `Post`
queryset: the inner join requires the category to exist (a null
`category` never matches) and be published. -/
def categoryJoinPublished (s : Store) (p : Post) : Bool :=
  match p.categoryId with
  | none => false
  | some cid =>
    match findCategoryById s cid with
    | none => false
    | some c => c.is_published

/-- Spec 3: a post is publicly visible iff `is_published = true`,
`pub_date <= now`, and its category is null or published.  (Stated from
the spec's words, to compare the views against.) -/
def isPubliclyVisible (s : Store) (p : Post) (now : Int) : Bool :=
  p.is_published && p.pub_date ≤ now &&
    (p.categoryId.isNone || categoryJoinPublished s p)

/-- `post.author == request.user` where the viewer may be anonymous. -/
def viewerIsAuthor (p : Post) (viewer : Option User) : Bool :=
  match viewer with
  | none => false
  | some u => u.id == p.authorId

/-- Spec 4.1: `isVisibleTo(post, viewer, now)` — publicly visible, or the
viewer is the author.  (Stated from the spec's words, to compare the
views against.) -/
def isVisibleTo (s : Store) (p : Post) (viewer : Option User) (now : Int) : Bool :=
  isPubliclyVisible s p now || viewerIsAuthor p viewer

/-- `request.user.username`: Django's `AnonymousUser.username` is the
empty string. -/
def viewerUsername (viewer : Option User) : String :=
  match viewer with
  | none => ""
  | some u => u.username

/-- The ordering `order_by('-pub_date')` sorts by: `a` comes no later
than `b` in the output when `b.pub_date ≤ a.pub_date`. -/
def pubDateGE (a b : Post) : Prop := b.pub_date ≤ a.pub_date

instance : DecidableRel pubDateGE := fun a b => Int.decLe b.pub_date a.pub_date

instance : IsTotal Post pubDateGE := ⟨fun a b => Int.le_total b.pub_date a.pub_date⟩

instance : IsTrans Post pubDateGE := ⟨fun _ _ _ h h2 => le_trans h2 h⟩

/-- `queryset.order_by('-pub_date')`. -/
def orderByPubDateDesc (l : List Post) : List Post :=
  List.insertionSort pubDateGE l

/-- A list is in the order `order_by('-pub_date')` produces:
nonincreasing publication dates. -/
def DescByPubDate (l : List Post) : Prop := List.Sorted pubDateGE l

/-! ## Pagination (`django.core.paginator.Paginator` and the generic
`ListView` machinery, both outside `src/`; modelled from the spec's
pagination contract together with the calling code's observable use:
`Paginator(qs, 10).get_page(request.GET.get('page'))` clamps, while
`ListView`'s `paginate_queryset` raises `Http404` on an invalid page). -/

/-- `Paginator.num_pages`: `ceil(count / per)`, but at least one page
(an empty first page is allowed). -/
def numPages (count per : Nat) : Nat := max 1 ((count + per - 1) / per)

/-- `Paginator.page(number)` returns the slice
`object_list[(number-1)*per : number*per]`. -/
def pageSlice (items : List Post) (per number : Nat) : List Post :=
  (items.drop ((number - 1) * per)).take per

/-- `Paginator.get_page`: a missing or non-integer page parameter becomes
page 1; a number below 1 or above `num_pages` becomes `num_pages`. -/
def getPageNumber (count per : Nat) (page : Option Int) : Nat :=
  let np := numPages count per
  match page with
  | none => 1
  | some n => if n < 1 then np else if (np : Int) < n then np else n.toNat

/-- The page of items `Paginator(items, per).get_page(page)` yields. -/
def getPage (items : List Post) (per : Nat) (page : Option Int) : List Post :=
  pageSlice items per (getPageNumber items.length per page)

/-- The generic `ListView` pagination (`paginate_queryset`): a missing
page parameter defaults to 1, but a page below 1 or above `num_pages`
raises `Http404` (`none`). -/
def listViewPage (items : List Post) (per : Nat) (page : Option Int) :
    Option (List Post) :=
  let np := numPages items.length per
  match page with
  | none => some (pageSlice items per 1)
  | some n =>
    if n < 1 then none
    else if (np : Int) < n then none
    else some (pageSlice items per n.toNat)

/-- The `annotate(comment_count=Count('comments'))` value for one post. -/
def commentCount (s : Store) (p : Post) : Nat :=
  (s.comments.filter (fun c => c.postId == p.id)).length

/-! ## Listing views -/

/-- `IndexListView`'s class-level queryset: posts with
`pub_date__lte=datetime.datetime.now(tz=timezone.utc)`,
`is_published=True`, `category__is_published=True`, ordered by
`-pub_date`.  The `now()` call sits in the class body, so it is evaluated
once, when the module is imported: the cutoff is `loadTime`, not the
time of the request. -/
def indexQueryset (s : Store) (loadTime : Int) : List Post :=
  orderByPubDateDesc (s.posts.filter (fun p =>
    p.pub_date ≤ loadTime && p.is_published && categoryJoinPublished s p))

/-- The global feed (`IndexListView`): the frozen-cutoff queryset paged
by the generic `ListView` machinery with `paginate_by = 10`.  The
request's time and user are available to the view but play no role in
the queryset. -/
def listGlobalFeed (s : Store) (loadTime _requestTime : Int) (_viewer : Option User)
    (page : Option Int) : Option (List Post) :=
  listViewPage (indexQueryset s loadTime) 10 page

/-- The queryset of the `profile` view: the profile owner's posts,
restricted to `is_published=True` when `request.user.username != username`,
ordered by `-pub_date`. -/
def profileQueryset (s : Store) (profileUser : User) (username : String)
    (viewer : Option User) : List Post :=
  let userPosts := s.posts.filter (fun p => p.authorId == profileUser.id)
  let userPosts :=
    if viewerUsername viewer ≠ username then
      userPosts.filter (fun p => p.is_published)
    else userPosts
  orderByPubDateDesc userPosts

/-- The `profile` view: `get_object_or_404(User.objects.all(),
username=username)`, then the profile queryset paged with
`Paginator(user_posts, 10).get_page(request.GET.get('page'))`. -/
def listUserProfile (s : Store) (username : String) (viewer : Option User)
    (page : Option Int) : Option (User × List Post) :=
  match findUserByUsername s username with
  | none => none
  | some u => some (u, getPage (profileQueryset s u username viewer) 10 page)

/-- `get_object_or_404(Category.objects.all(), is_published=True,
slug=category_slug)`. -/
def findPublishedCategoryBySlug (s : Store) (slug : String) : Option Category :=
  s.categories.find? (fun c => c.is_published && c.slug == slug)

/-- The ORM condition `category__slug__exact=slug` on a `Post` queryset:
the joined category exists and has the given slug. -/
def categoryJoinSlug (s : Store) (p : Post) (slug : String) : Bool :=
  match p.categoryId with
  | none => false
  | some cid =>
    match findCategoryById s cid with
    | none => false
    | some c => c.slug == slug

/-- The queryset of `category_posts`: `category.posts.all()` ordered by
`-pub_date` and filtered by `pub_date__lte=now()` (evaluated on each
call), `is_published=True`, `category__slug__exact=category_slug`. -/
def categoryQueryset (s : Store) (c : Category) (slug : String) (now : Int) :
    List Post :=
  orderByPubDateDesc ((s.posts.filter (fun p => p.categoryId == some c.id)).filter
    (fun p => p.pub_date ≤ now && p.is_published && categoryJoinSlug s p slug))

/-- The `category_posts` view: 404 unless a published category with the
slug exists, then its queryset paged with `Paginator(post_list, 10)
.get_page(request.GET.get('page'))`. -/
def listCategoryFeed (s : Store) (slug : String) (now : Int) (page : Option Int) :
    Option (Category × List Post) :=
  match findPublishedCategoryBySlug s slug with
  | none => none
  | some c => some (c, getPage (categoryQueryset s c slug now) 10 page)

/-! ## Detail view and mutations -/

/-- `PostDetailView.get_object`: `super().get_object()` loads the post by
pk (404 when absent), then
`if not post.is_published and post.author != self.request.user: raise Http404`.
No other condition is checked. -/
def getPostDetail (s : Store) (postId : Nat) (viewer : Option User) : Option Post :=
  match findPost s postId with
  | none => none
  | some p => if !p.is_published && !viewerIsAuthor p viewer then none else some p

/-- The observable outcome of a mutating view: `Http404`, a redirect to
`blog:post_detail` of a post, or a redirect to `blog:profile` of a
username. -/
inductive Outcome where
  | notFound : Outcome
  | redirectDetail : Nat → Outcome
  | redirectProfile : String → Outcome
deriving DecidableEq, Repr

/-- Modelled from the spec: the editable field set of `PostForm`
(`forms.py` is outside `src/`; spec 6 lists
`title, text, pubDate, category?, location?, isPublished`). -/
structure PostFields where
  title : String
  text : String
  pub_date : Int
  categoryId : Option Nat
  locationId : Option Nat
  is_published : Bool
deriving DecidableEq, Repr

/-- Apply a validated `PostForm` to an existing post: `author`, `id` and
`created_at` are untouched. -/
def applyPostFields (p : Post) (f : PostFields) : Post :=
  { p with title := f.title, text := f.text, pub_date := f.pub_date,
           categoryId := f.categoryId, locationId := f.locationId,
           is_published := f.is_published }

/-- `PostUpdateView` (with `LoginRequiredMixin`, so `viewer` is
authenticated): `dispatch` loads the post by pk via `get_object_or_404`
(404 when absent); when `self.posts.author != request.user` it redirects
to `blog:post_detail` without touching the store; otherwise the form is
applied and `get_success_url` also redirects to `blog:post_detail`. -/
def updatePost (s : Store) (postId : Nat) (viewer : User) (fields : PostFields) :
    Store × Outcome :=
  match findPost s postId with
  | none => (s, Outcome.notFound)
  | some p =>
    if p.authorId != viewer.id then (s, Outcome.redirectDetail postId)
    else
      ({ s with posts := s.posts.map (fun q =>
          if q.id == postId then applyPostFields q fields else q) },
       Outcome.redirectDetail postId)

/-- `PostDeleteView` (with `LoginRequiredMixin`): `dispatch` runs
`get_object_or_404(Post, pk=post_id, author=request.user.id)`, so a
non-owner gets 404; on success the post is deleted (comments cascade)
and `get_success_url` redirects to the viewer's own profile. -/
def deletePost (s : Store) (postId : Nat) (viewer : User) : Store × Outcome :=
  match s.posts.find? (fun p => p.id == postId && p.authorId == viewer.id) with
  | none => (s, Outcome.notFound)
  | some _ =>
    ({ s with posts := s.posts.filter (fun p => !(p.id == postId)),
              comments := s.comments.filter (fun c => !(c.postId == postId)) },
     Outcome.redirectProfile viewer.username)

/-- A submitted create-post form: the validated editable fields plus
whatever author value the client put in the POST body. -/
structure SubmittedPostData where
  fields : PostFields
  submittedAuthorId : Option Nat
deriving DecidableEq, Repr

/-- `PostCreateView` (with `LoginRequiredMixin`): `form_valid` sets
`form.instance.author = self.request.user`, so the stored author is the
authenticated caller whatever the POST body said; `get_success_url`
redirects to the caller's own profile. -/
def createPost (s : Store) (viewer : User) (data : SubmittedPostData)
    (newId : Nat) (now : Int) : Store × Outcome :=
  ({ s with posts := s.posts ++ [{
      id := newId,
      title := data.fields.title,
      text := data.fields.text,
      pub_date := data.fields.pub_date,
      authorId := viewer.id,
      categoryId := data.fields.categoryId,
      locationId := data.fields.locationId,
      is_published := data.fields.is_published,
      created_at := now }] },
   Outcome.redirectProfile viewer.username)

/-- `add_comment` (`@login_required`): `get_object_or_404(Post, pk=post_id)`
looks the post up by id only; when the form is valid (`text = some t`,
`CommentForm` being outside `src/` its validity is modelled from the
spec's "malformed input is silently ignored") a comment authored by the
caller is saved; valid or not, the view redirects to `blog:post_detail`. -/
def add_comment (s : Store) (postId : Nat) (viewer : User) (text : Option String)
    (newId : Nat) (now : Int) : Store × Outcome :=
  match findPost s postId with
  | none => (s, Outcome.notFound)
  | some _ =>
    match text with
    | some t =>
      ({ s with comments := s.comments ++ [{
          id := newId, text := t, authorId := viewer.id,
          postId := postId, created_at := now }] },
       Outcome.redirectDetail postId)
    | none => (s, Outcome.redirectDetail postId)

/-- The ownership-scoped lookup both comment views run in `dispatch`:
`get_object_or_404(Comment, pk=comment_id, author=request.user.id)`. -/
def findOwnComment (s : Store) (commentId : Nat) (viewer : User) : Option Comment :=
  s.comments.find? (fun c => c.id == commentId && c.authorId == viewer.id)

/-- `CommentUpdateView` (with `LoginRequiredMixin`): `dispatch` 404s
unless the comment exists with `author=request.user.id`; on success the
comment's text is updated and `get_success_url` redirects to the
viewer's own profile. -/
def updateComment (s : Store) (commentId : Nat) (viewer : User) (text : String) :
    Store × Outcome :=
  match findOwnComment s commentId viewer with
  | none => (s, Outcome.notFound)
  | some _ =>
    ({ s with comments := s.comments.map (fun c =>
        if c.id == commentId then { c with text := text } else c) },
     Outcome.redirectProfile viewer.username)

/-- `CommentDeleteView` (with `LoginRequiredMixin`): `dispatch` 404s
unless the comment exists with `author=request.user.id`; on success the
comment is deleted and `get_success_url` redirects to the viewer's own
profile. -/
def deleteComment (s : Store) (commentId : Nat) (viewer : User) : Store × Outcome :=
  match findOwnComment s commentId viewer with
  | none => (s, Outcome.notFound)
  | some _ =>
    ({ s with comments := s.comments.filter (fun c => !(c.id == commentId)) },
     Outcome.redirectProfile viewer.username)

/-! ## Concrete fixtures used to evaluate the views on small stores -/

def alice : User := ⟨1, "alice"⟩

def bob : User := ⟨2, "bob"⟩

def cNews : Category := ⟨1, "News", "news", true, 0⟩

/-- A published post whose `pub_date` lies in the future of the sample
request time 5. -/
def futurePost : Post := ⟨1, "T", "x", 10, 1, some 1, none, true, 0⟩

def storeA : Store := ⟨[alice, bob], [cNews], [futurePost], []⟩

def p1 : Post := ⟨1, "a", "x", 3, 1, some 1, none, true, 0⟩

def p2 : Post := ⟨2, "b", "x", 2, 1, some 1, none, true, 0⟩

def p3 : Post := ⟨3, "c", "x", 1, 1, some 1, none, true, 0⟩

def storeB : Store := ⟨[alice, bob], [cNews], [p1, p2, p3], []⟩

/-- A comment by alice on `futurePost`. -/
def com1 : Comment := ⟨1, "hi", 1, 1, 0⟩

def storeC : Store := ⟨[alice, bob], [cNews], [futurePost], [com1]⟩

def exampleFields : PostFields := ⟨"new title", "new text", 7, none, none, false⟩

def exampleData : SubmittedPostData := ⟨exampleFields, some 1⟩

/-! ## Helper lemmas -/

theorem orderByPubDateDesc_sorted (l : List Post) :
    DescByPubDate (orderByPubDateDesc l) :=
  List.sorted_insertionSort pubDateGE l

theorem mem_orderByPubDateDesc {l : List Post} {p : Post} :
    p ∈ orderByPubDateDesc l ↔ p ∈ l :=
  List.mem_insertionSort pubDateGE

theorem find?_key_of_mem {α β : Type} [BEq β] [LawfulBEq β] (key : α → β)
    {l : List α} (hnd : (l.map key).Nodup) {a : α} (ha : a ∈ l) :
    l.find? (fun x => key x == key a) = some a := by
  induction l with
  | nil => cases ha
  | cons x xs ih =>
    rw [List.map_cons, List.nodup_cons] at hnd
    rcases List.mem_cons.mp ha with h | h
    · subst h
      exact List.find?_cons_of_pos _ (beq_self_eq_true _)
    · have hx : ¬ (key x == key a) = true := by
        intro hk
        exact hnd.1 (List.mem_map.mpr ⟨a, h, (eq_of_beq hk).symm⟩)
      have hstep : List.find? (fun y => key y == key a) (x :: xs)
          = List.find? (fun y => key y == key a) xs :=
        List.find?_cons_of_neg xs hx
      rw [hstep]
      exact ih hnd.2 h

theorem findPost_of_mem {s : Store} (hw : s.wf) {p : Post} (hp : p ∈ s.posts) :
    findPost s p.id = some p :=
  find?_key_of_mem Post.id hw.2.2.2.2.1 hp

theorem findCategoryById_of_mem {s : Store} (hw : s.wf) {c : Category}
    (hc : c ∈ s.categories) : findCategoryById s c.id = some c :=
  find?_key_of_mem Category.id hw.2.2.1 hc

theorem eq_of_mem_posts_of_id_eq {s : Store} (hw : s.wf) {p q : Post}
    (hp : p ∈ s.posts) (hq : q ∈ s.posts) (h : p.id = q.id) : p = q :=
  List.inj_on_of_nodup_map hw.2.2.2.2.1 hp hq h

theorem eq_of_mem_comments_of_id_eq {s : Store} (hw : s.wf) {c d : Comment}
    (hc : c ∈ s.comments) (hd : d ∈ s.comments) (h : c.id = d.id) : c = d :=
  List.inj_on_of_nodup_map hw.2.2.2.2.2.1 hc hd h

theorem pageSlice_subset (items : List Post) (per number : Nat) :
    pageSlice items per number ⊆ items :=
  fun _ h => List.drop_subset _ _ (List.take_subset _ _ h)

theorem getPage_subset (items : List Post) (per : Nat) (page : Option Int) :
    getPage items per page ⊆ items :=
  pageSlice_subset items per _

theorem getPage_length_le (items : List Post) (per : Nat) (page : Option Int) :
    (getPage items per page).length ≤ per :=
  List.length_take_le _ _

theorem listViewPage_subset {items : List Post} {per : Nat} {page : Option Int}
    {ps : List Post} (h : listViewPage items per page = some ps) : ps ⊆ items := by
  unfold listViewPage at h
  cases page with
  | none =>
    simp only [Option.some.injEq] at h
    exact h ▸ pageSlice_subset items per 1
  | some n =>
    by_cases h1 : n < 1
    · simp [h1] at h
    · by_cases h2 : ((numPages items.length per : Int) < n)
      · simp [h1, h2] at h
      · simp only [h1, h2, if_false, Option.some.injEq] at h
        exact h ▸ pageSlice_subset items per n.toNat

theorem listViewPage_length_le {items : List Post} {per : Nat} {page : Option Int}
    {ps : List Post} (h : listViewPage items per page = some ps) :
    ps.length ≤ per := by
  unfold listViewPage at h
  cases page with
  | none =>
    simp only [Option.some.injEq] at h
    exact h ▸ List.length_take_le _ _
  | some n =>
    by_cases h1 : n < 1
    · simp [h1] at h
    · by_cases h2 : ((numPages items.length per : Int) < n)
      · simp [h1, h2] at h
      · simp only [h1, h2, if_false, Option.some.injEq] at h
        exact h ▸ List.length_take_le _ _

theorem mem_indexQueryset {s : Store} {load : Int} {p : Post} :
    p ∈ indexQueryset s load ↔
      (p ∈ s.posts ∧ p.pub_date ≤ load ∧ p.is_published = true ∧
        categoryJoinPublished s p = true) := by
  unfold indexQueryset
  rw [mem_orderByPubDateDesc, List.mem_filter]
  simp only [Bool.and_eq_true, decide_eq_true_eq]
  tauto

theorem isPubliclyVisible_of_parts {s : Store} {p : Post} {now : Int}
    (h1 : p.is_published = true) (h2 : p.pub_date ≤ now)
    (h3 : categoryJoinPublished s p = true) :
    isPubliclyVisible s p now = true := by
  unfold isPubliclyVisible
  simp only [Bool.and_eq_true, Bool.or_eq_true, decide_eq_true_eq]
  exact ⟨⟨h1, h2⟩, Or.inr h3⟩

theorem getPostDetail_eq_some {s : Store} {postId : Nat} {viewer : Option User}
    {p : Post} :
    getPostDetail s postId viewer = some p ↔
      findPost s postId = some p ∧
        (p.is_published = true ∨ viewerIsAuthor p viewer = true) := by
  unfold getPostDetail
  cases h : findPost s postId with
  | none => simp
  | some q =>
    cases hpub : q.is_published <;> cases hauth : viewerIsAuthor q viewer <;>
      simp only [hpub, hauth, Bool.not_false, Bool.not_true, Bool.and_self,
        Bool.and_false, Bool.false_and, Bool.and_true, Bool.true_and,
        if_true, if_false, reduceIte]
    · constructor
      · intro hg; cases hg
      · rintro ⟨hq, hor⟩
        injection hq with hq; subst hq
        rcases hor with h1 | h1
        · rw [hpub] at h1; cases h1
        · rw [hauth] at h1; cases h1
    · constructor
      · intro hg
        injection hg with hg; subst hg
        exact ⟨rfl, Or.inr hauth⟩
      · rintro ⟨hq, _⟩; exact hq
    · constructor
      · intro hg
        injection hg with hg; subst hg
        exact ⟨rfl, Or.inl hpub⟩
      · rintro ⟨hq, _⟩; exact hq
    · constructor
      · intro hg
        injection hg with hg; subst hg
        exact ⟨rfl, Or.inl hpub⟩
      · rintro ⟨hq, _⟩; exact hq

theorem getPostDetail_eq_none {s : Store} {postId : Nat} {viewer : Option User} :
    getPostDetail s postId viewer = none ↔
      (findPost s postId = none ∨
        ∃ p, findPost s postId = some p ∧
          p.is_published = false ∧ viewerIsAuthor p viewer = false) := by
  unfold getPostDetail
  cases h : findPost s postId with
  | none => simp
  | some q =>
    cases hpub : q.is_published <;> cases hauth : viewerIsAuthor q viewer <;>
      simp only [hpub, hauth, Bool.not_false, Bool.not_true, Bool.and_self,
        Bool.and_false, Bool.false_and, Bool.and_true, Bool.true_and,
        if_true, if_false, reduceIte]
    · constructor
      · intro _
        exact Or.inr ⟨q, rfl, hpub, hauth⟩
      · intro _; trivial
    all_goals
      constructor
      · intro hg; simp_all
      · rintro (hn | ⟨p, hp, h1, h2⟩)
        · cases hn
        · injection hp with hp; subst hp
          simp_all

theorem findUserByUsername_eq_none {s : Store} {username : String} :
    findUserByUsername s username = none ↔
      ∀ u ∈ s.users, u.username ≠ username := by
  unfold findUserByUsername
  rw [List.find?_eq_none]
  constructor
  · intro h u hu heq
    exact h u hu (by simp [heq])
  · intro h u hu hb
    exact h u hu (by simpa using hb)

theorem findUserByUsername_some {s : Store} {username : String} {u : User}
    (h : findUserByUsername s username = some u) :
    u ∈ s.users ∧ u.username = username :=
  ⟨List.mem_of_find?_eq_some h, by simpa using List.find?_some h⟩

theorem mem_profileQueryset {s : Store} {u : User} {username : String}
    {viewer : Option User} {p : Post} :
    p ∈ profileQueryset s u username viewer ↔
      (p ∈ s.posts ∧ p.authorId = u.id ∧
        (viewerUsername viewer = username ∨ p.is_published = true)) := by
  simp only [profileQueryset]
  by_cases hv : viewerUsername viewer = username
  · rw [if_neg (fun hne => hne hv)]
    rw [mem_orderByPubDateDesc, List.mem_filter]
    simp only [beq_iff_eq]
    tauto
  · rw [if_pos hv]
    rw [mem_orderByPubDateDesc, List.mem_filter, List.mem_filter]
    simp only [beq_iff_eq]
    constructor
    · rintro ⟨⟨hm, ha⟩, hp⟩
      exact ⟨hm, ha, Or.inr hp⟩
    · rintro ⟨hm, ha, hv2 | hp⟩
      · exact absurd hv2 hv
      · exact ⟨⟨hm, ha⟩, hp⟩

/-! ## The claims -/

/-- Claim C1 (counterexample): at time 5 with an anonymous viewer, the
post `futurePost` (`is_published = true` but `pub_date = 10 > 5`) fails
the spec's `isVisibleTo` predicate, yet `getPostDetail` returns it
instead of raising NotFound: `PostDetailView.get_object` never checks
`pub_date` or the category's publication state. -/
theorem C1_counterexample :
    getPostDetail storeA 1 none = some futurePost ∧
    isVisibleTo storeA futurePost none 5 = false := by decide

/-- Claim C1 (amended): for every post id and viewer, `getPostDetail`
returns the post iff it exists and (`is_published = true` or the viewer
is its author); it raises NotFound when the id does not exist or the
post is unpublished and the viewer is not the author.  The
`pub_date <= now` and category-publication conditions are not checked. -/
theorem C1_theorem (s : Store) (postId : Nat) (viewer : Option User) :
    (∀ p, getPostDetail s postId viewer = some p ↔
      (findPost s postId = some p ∧
        (p.is_published = true ∨ viewerIsAuthor p viewer = true))) ∧
    (getPostDetail s postId viewer = none ↔
      (findPost s postId = none ∨
        ∃ p, findPost s postId = some p ∧
          p.is_published = false ∧ viewerIsAuthor p viewer = false)) :=
  ⟨fun _ => getPostDetail_eq_some, getPostDetail_eq_none⟩

/-- Claim C1 (witness): the amended theorem evaluated at `storeA`, post
id 1, viewer bob. -/
theorem C1_witness :
    (∀ p, getPostDetail storeA 1 (some bob) = some p ↔
      (findPost storeA 1 = some p ∧
        (p.is_published = true ∨ viewerIsAuthor p (some bob) = true))) ∧
    (getPostDetail storeA 1 (some bob) = none ↔
      (findPost storeA 1 = none ∨
        ∃ p, findPost storeA 1 = some p ∧
          p.is_published = false ∧ viewerIsAuthor p (some bob) = false)) :=
  C1_theorem storeA 1 (some bob)

/-- Claim C2 (counterexample): bob views alice's profile at time 5;
alice's post `futurePost` has `pub_date = 10 > 5`, so it fails the full
public-visibility predicate, yet the `profile` view returns it: the
non-owner branch filters by `is_published=True` only. -/
theorem C2_counterexample :
    listUserProfile storeA "alice" (some bob) none = some (alice, [futurePost]) ∧
    isPubliclyVisible storeA futurePost 5 = false := by decide

/-- Claim C2 (amended): `listUserProfile` 404s iff no user bears the
requested username; otherwise it pages, ordered by `pub_date`
descending, ALL of the user's posts when the viewer's username equals
the requested one, and exactly the user's posts with
`is_published = true` for any other viewer — the `pub_date <= now` and
category-publication parts of the public-visibility predicate are not
applied. -/
theorem C2_theorem (s : Store) (username : String) (viewer : Option User)
    (page : Option Int) :
    (listUserProfile s username viewer page = none ↔
      ∀ u ∈ s.users, u.username ≠ username) ∧
    (∀ u, findUserByUsername s username = some u →
      (u ∈ s.users ∧ u.username = username) ∧
      listUserProfile s username viewer page
        = some (u, getPage (profileQueryset s u username viewer) 10 page) ∧
      DescByPubDate (profileQueryset s u username viewer) ∧
      (∀ p, p ∈ profileQueryset s u username viewer ↔
        (p ∈ s.posts ∧ p.authorId = u.id ∧
          (viewerUsername viewer = username ∨ p.is_published = true)))) := by
  constructor
  · unfold listUserProfile
    cases h : findUserByUsername s username with
    | none =>
      constructor
      · intro _
        exact findUserByUsername_eq_none.mp h
      · intro _; rfl
    | some u =>
      constructor
      · intro hc; cases hc
      · intro hall
        exfalso
        obtain ⟨hm, he⟩ := findUserByUsername_some h
        exact hall u hm he
  · intro u hu
    refine ⟨findUserByUsername_some hu, ?_, ?_, fun p => mem_profileQueryset⟩
    · unfold listUserProfile
      rw [hu]
    · exact orderByPubDateDesc_sorted _

/-- Claim C2 (witness): the theorem evaluated at `storeA`, username
"alice", viewer bob, no page parameter. -/
theorem C2_witness :
    (listUserProfile storeA "alice" (some bob) none = none ↔
      ∀ u ∈ storeA.users, u.username ≠ "alice") ∧
    (∀ u, findUserByUsername storeA "alice" = some u →
      (u ∈ storeA.users ∧ u.username = "alice") ∧
      listUserProfile storeA "alice" (some bob) none
        = some (u, getPage (profileQueryset storeA u "alice" (some bob)) 10 none) ∧
      DescByPubDate (profileQueryset storeA u "alice" (some bob)) ∧
      (∀ p, p ∈ profileQueryset storeA u "alice" (some bob) ↔
        (p ∈ storeA.posts ∧ p.authorId = u.id ∧
          (viewerUsername (some bob) = "alice" ∨ p.is_published = true)))) :=
  C2_theorem storeA "alice" (some bob) none

theorem numPages_pos (count per : Nat) : 1 ≤ numPages count per :=
  Nat.le_max_left _ _

theorem getPage_clamp (items : List Post) (n : Int)
    (h : (numPages items.length 10 : Int) < n ∨ n < 1) :
    getPage items 10 (some n)
      = pageSlice items 10 (numPages items.length 10) := by
  simp only [getPage, getPageNumber]
  rcases h with h | h
  · have hnp : (1 : Int) ≤ (numPages items.length 10 : Int) := by
      exact_mod_cast numPages_pos items.length 10
    rw [if_neg (by omega), if_pos h]
  · rw [if_pos h]

/-- Claim C3 (counterexample): `storeB`'s global feed holds exactly 3
posts, and requesting page 9999 on it raises NotFound (`none`) instead
of returning the last valid page (page 1, which succeeds): the generic
`ListView` pagination of `IndexListView` raises `Http404` on
out-of-range pages rather than clamping. -/
theorem C3_counterexample :
    (indexQueryset storeB 5).length = 3 ∧
    listGlobalFeed storeB 5 5 none (some 9999) = none ∧
    listGlobalFeed storeB 5 5 none (some 1) = some [p1, p2, p3] := by decide

/-- Claim C3 (amended): the page size is the fixed constant 10 for all
three listings, and `listUserProfile` and `listCategoryFeed` clamp
out-of-range page numbers (whether above `num_pages` or below 1) to the
last valid page and never error, because they paginate with
`Paginator.get_page`; `listGlobalFeed`, however, raises NotFound on any
out-of-range page number, because the generic `ListView` machinery
raises `Http404` there. -/
theorem C3_theorem :
    (∀ (items : List Post) (n : Int),
      ((numPages items.length 10 : Int) < n ∨ n < 1) →
      getPage items 10 (some n)
        = pageSlice items 10 (numPages items.length 10)) ∧
    (∀ (s : Store) (username : String) (viewer : Option User) (u : User) (n : Int),
      findUserByUsername s username = some u →
      ((numPages (profileQueryset s u username viewer).length 10 : Int) < n ∨ n < 1) →
      listUserProfile s username viewer (some n)
        = some (u, pageSlice (profileQueryset s u username viewer) 10
            (numPages (profileQueryset s u username viewer).length 10))) ∧
    (∀ (s : Store) (slug : String) (now : Int) (c : Category) (n : Int),
      findPublishedCategoryBySlug s slug = some c →
      ((numPages (categoryQueryset s c slug now).length 10 : Int) < n ∨ n < 1) →
      listCategoryFeed s slug now (some n)
        = some (c, pageSlice (categoryQueryset s c slug now) 10
            (numPages (categoryQueryset s c slug now).length 10))) ∧
    (∀ (s : Store) (load rt : Int) (v : Option User) (n : Int),
      ((numPages (indexQueryset s load).length 10 : Int) < n ∨ n < 1) →
      listGlobalFeed s load rt v (some n) = none) ∧
    (∀ (s : Store) (load rt : Int) (v : Option User) (page : Option Int)
      (ps : List Post),
      listGlobalFeed s load rt v page = some ps → ps.length ≤ 10) ∧
    (∀ (s : Store) (username : String) (viewer : Option User) (page : Option Int)
      (u : User) (ps : List Post),
      listUserProfile s username viewer page = some (u, ps) → ps.length ≤ 10) ∧
    (∀ (s : Store) (slug : String) (now : Int) (page : Option Int)
      (c : Category) (ps : List Post),
      listCategoryFeed s slug now page = some (c, ps) → ps.length ≤ 10) := by
  refine ⟨getPage_clamp, ?_, ?_, ?_, ?_, ?_, ?_⟩
  · intro s username viewer u n hu h
    simp only [listUserProfile, hu]
    rw [getPage_clamp _ _ h]
  · intro s slug now c n hc h
    simp only [listCategoryFeed, hc]
    rw [getPage_clamp _ _ h]
  · intro s load rt v n h
    simp only [listGlobalFeed, listViewPage]
    rcases h with h | h
    · have hnp : (1 : Int) ≤ (numPages (indexQueryset s load).length 10 : Int) := by
        exact_mod_cast numPages_pos (indexQueryset s load).length 10
      rw [if_neg (by omega), if_pos h]
    · rw [if_pos h]
  · intro s load rt v page ps h
    exact listViewPage_length_le h
  · intro s username viewer page u ps h
    unfold listUserProfile at h
    cases hu : findUserByUsername s username with
    | none => rw [hu] at h; cases h
    | some u2 =>
      rw [hu] at h
      injection h with h
      have h2 := congrArg Prod.snd h
      simp only at h2
      exact h2 ▸ getPage_length_le _ 10 page
  · intro s slug now page c ps h
    unfold listCategoryFeed at h
    cases hc : findPublishedCategoryBySlug s slug with
    | none => rw [hc] at h; cases h
    | some c2 =>
      rw [hc] at h
      injection h with h
      have h2 := congrArg Prod.snd h
      simp only at h2
      exact h2 ▸ getPage_length_le _ 10 page

/-- Claim C3 (witness): the amended theorem evaluated on `storeB`'s
3-post data at page 9999. -/
theorem C3_witness :
    getPage [p1, p2, p3] 10 (some 9999)
      = pageSlice [p1, p2, p3] 10 (numPages (List.length [p1, p2, p3]) 10) ∧
    listGlobalFeed storeB 5 5 none (some 9999) = none ∧
    listUserProfile storeB "alice" (some alice) (some 9999)
      = some (alice, pageSlice (profileQueryset storeB alice "alice" (some alice)) 10
          (numPages (profileQueryset storeB alice "alice" (some alice)).length 10)) :=
  ⟨C3_theorem.1 [p1, p2, p3] 9999 (by decide),
   C3_theorem.2.2.2.1 storeB 5 5 none 9999 (by decide),
   C3_theorem.2.1 storeB "alice" (some alice) alice 9999 (by decide) (by decide)⟩

/-- Claim C4: a non-author's `updatePost` or `deletePost` attempt leaves
the whole store unchanged (so the post's stored fields are byte-identical
to before); the update denial is observed as a redirect to the post's
detail page, the delete denial as NotFound, because
`PostDeleteView.dispatch` scopes its lookup to
`(pk=post_id, author=request.user.id)`. -/
theorem C4_theorem (s : Store) (viewer : User) (fields : PostFields) (p : Post)
    (hw : s.wf) (hp : p ∈ s.posts) (hne : p.authorId ≠ viewer.id) :
    updatePost s p.id viewer fields = (s, Outcome.redirectDetail p.id) ∧
    deletePost s p.id viewer = (s, Outcome.notFound) := by
  constructor
  · simp only [updatePost, findPost_of_mem hw hp]
    rw [if_pos (by simp [hne])]
  · have hnone :
        s.posts.find? (fun q => q.id == p.id && q.authorId == viewer.id) = none := by
      rw [List.find?_eq_none]
      intro q hq hb
      rw [Bool.and_eq_true] at hb
      have hid : q.id = p.id := by simpa using hb.1
      have hqp : q = p := eq_of_mem_posts_of_id_eq hw hq hp hid
      subst hqp
      exact hne (by simpa using hb.2)
    simp only [deletePost, hnone]

/-- Claim C4 (witness): bob attempts to edit and delete alice's post in
`storeA`; the store is unchanged, the edit is answered with a redirect
to the post and the delete with NotFound. -/
theorem C4_witness :
    updatePost storeA futurePost.id bob exampleFields
      = (storeA, Outcome.redirectDetail futurePost.id) ∧
    deletePost storeA futurePost.id bob = (storeA, Outcome.notFound) :=
  C4_theorem storeA bob exampleFields futurePost (by decide) (by decide) (by decide)

/-- Claim C5: `updateComment` and `deleteComment` by a viewer other than
the comment's author return NotFound (the `dispatch` lookup is scoped to
`(pk=comment_id, author=request.user.id)`) and leave the store — hence
the comment — unchanged; when the viewer is the author, the successful
mutation redirects to the viewer's own profile feed, not to the post. -/
theorem C5_theorem (s : Store) (viewer : User) (c : Comment) (t : String)
    (hw : s.wf) (hc : c ∈ s.comments) :
    (c.authorId ≠ viewer.id →
      updateComment s c.id viewer t = (s, Outcome.notFound) ∧
      deleteComment s c.id viewer = (s, Outcome.notFound) ∧
      c ∈ (updateComment s c.id viewer t).1.comments ∧
      c ∈ (deleteComment s c.id viewer).1.comments) ∧
    (c.authorId = viewer.id →
      (updateComment s c.id viewer t).2 = Outcome.redirectProfile viewer.username ∧
      (deleteComment s c.id viewer).2 = Outcome.redirectProfile viewer.username) := by
  constructor
  · intro hne
    have hnone : findOwnComment s c.id viewer = none := by
      rw [findOwnComment, List.find?_eq_none]
      intro d hd hb
      rw [Bool.and_eq_true] at hb
      have hid : d.id = c.id := by simpa using hb.1
      have hdc : d = c := eq_of_mem_comments_of_id_eq hw hd hc hid
      subst hdc
      exact hne (by simpa using hb.2)
    have h1 : updateComment s c.id viewer t = (s, Outcome.notFound) := by
      simp only [updateComment, hnone]
    have h2 : deleteComment s c.id viewer = (s, Outcome.notFound) := by
      simp only [deleteComment, hnone]
    exact ⟨h1, h2, by rw [h1]; exact hc, by rw [h2]; exact hc⟩
  · intro heq
    have hpred : (c.id == c.id && c.authorId == viewer.id) = true := by
      simp [heq]
    cases hf : findOwnComment s c.id viewer with
    | none =>
      exfalso
      rw [findOwnComment, List.find?_eq_none] at hf
      exact hf c hc hpred
    | some d =>
      constructor <;> simp [updateComment, deleteComment, hf]

/-- Claim C5 (witness): bob attempts to edit and delete alice's comment
`com1` in `storeC`; both return NotFound and the comment is still
stored. -/
theorem C5_witness :
    updateComment storeC com1.id bob "z" = (storeC, Outcome.notFound) ∧
    deleteComment storeC com1.id bob = (storeC, Outcome.notFound) ∧
    com1 ∈ (updateComment storeC com1.id bob "z").1.comments ∧
    com1 ∈ (deleteComment storeC com1.id bob).1.comments :=
  (C5_theorem storeC bob com1 "z" (by decide) (by decide)).1 (by decide)

/-- Claim C6: whatever the store, page and load time, every post the
global feed returns satisfies the full public-visibility predicate at
any request time `now` at or after module load — so it never returns a
post with `is_published = false`, `pub_date > now`, or an unpublished
category — and the result does not depend on who the viewer is: no
author exception applies. -/
theorem C6_theorem (s : Store) (loadTime requestTime now : Int)
    (page : Option Int) (ps : List Post) (v1 v2 : Option User)
    (hload : loadTime ≤ now)
    (h : listGlobalFeed s loadTime requestTime v1 page = some ps) :
    (∀ p ∈ ps, isPubliclyVisible s p now = true) ∧
    listGlobalFeed s loadTime requestTime v1 page
      = listGlobalFeed s loadTime requestTime v2 page := by
  refine ⟨?_, rfl⟩
  intro p hp
  have hsub : ps ⊆ indexQueryset s loadTime := listViewPage_subset h
  have hm := mem_indexQueryset.mp (hsub hp)
  exact isPubliclyVisible_of_parts hm.2.2.1 (le_trans hm.2.1 hload) hm.2.2.2

/-- Claim C6 (witness): the theorem evaluated on `storeB` at load and
request time 5: the full first page is publicly visible and identical
for an anonymous viewer and for bob. -/
theorem C6_witness :
    (∀ p ∈ [p1, p2, p3], isPubliclyVisible storeB p 5 = true) ∧
    listGlobalFeed storeB 5 5 none none
      = listGlobalFeed storeB 5 5 (some bob) none :=
  C6_theorem storeB 5 5 5 none [p1, p2, p3] none (some bob) (by decide) (by decide)

/-- Claim C7: `add_comment` looks the post up by id only — the sole
hypothesis is that the id exists, with no visibility condition, so a
comment can be attached to a post hidden from the commenter — and on
valid input it appends a comment authored by the caller, on invalid
input it creates nothing, and in both cases it redirects to the post's
detail page. -/
theorem C7_theorem (s : Store) (postId : Nat) (viewer : User) (t : String)
    (newId : Nat) (now : Int) (p : Post)
    (hp : findPost s postId = some p) :
    add_comment s postId viewer (some t) newId now
      = ({ s with comments := s.comments ++
            [{ id := newId, text := t, authorId := viewer.id,
               postId := postId, created_at := now }] },
         Outcome.redirectDetail postId) ∧
    add_comment s postId viewer none newId now
      = (s, Outcome.redirectDetail postId) := by
  constructor <;> simp [add_comment, hp]

/-- Claim C7 (witness): bob comments on `futurePost`, a post not
publicly visible at time 5 (its `pub_date` is 10); the comment is
created anyway and both the valid and the invalid submission redirect
to the post's detail page. -/
theorem C7_witness :
    add_comment storeA 1 bob (some "hi") 5 5
      = ({ storeA with comments := storeA.comments ++
            [{ id := 5, text := "hi", authorId := bob.id,
               postId := 1, created_at := 5 }] },
         Outcome.redirectDetail 1) ∧
    add_comment storeA 1 bob none 5 5 = (storeA, Outcome.redirectDetail 1) :=
  C7_theorem storeA 1 bob "hi" 5 5 futurePost (by decide)

/-- Claim C8: `createPost` stores the authenticated caller as the new
post's author — the submitted author value is ignored, so two
submissions differing only in it produce identical results — and
redirects to the caller's own profile feed. -/
theorem C8_theorem (s : Store) (viewer : User) (data : SubmittedPostData)
    (newId : Nat) (now : Int) :
    (createPost s viewer data newId now).2
      = Outcome.redirectProfile viewer.username ∧
    (∃ p, (createPost s viewer data newId now).1.posts = s.posts ++ [p] ∧
      p.authorId = viewer.id) ∧
    (∀ a : Option Nat,
      createPost s viewer { data with submittedAuthorId := a } newId now
        = createPost s viewer data newId now) :=
  ⟨rfl, ⟨_, rfl, rfl⟩, fun _ => rfl⟩

/-- Claim C8 (witness): the theorem evaluated at `storeA` with caller
bob and a form whose submitted author value names alice. -/
theorem C8_witness :
    (createPost storeA bob exampleData 9 5).2
      = Outcome.redirectProfile bob.username ∧
    (∃ p, (createPost storeA bob exampleData 9 5).1.posts
        = storeA.posts ++ [p] ∧ p.authorId = bob.id) ∧
    (∀ a : Option Nat,
      createPost storeA bob { exampleData with submittedAuthorId := a } 9 5
        = createPost storeA bob exampleData 9 5) :=
  C8_theorem storeA bob exampleData 9 5

theorem findPublishedCategoryBySlug_some {s : Store} {slug : String} {c : Category}
    (h : findPublishedCategoryBySlug s slug = some c) :
    c ∈ s.categories ∧ c.slug = slug ∧ c.is_published = true := by
  have hm := List.mem_of_find?_eq_some h
  have hp := List.find?_some h
  rw [Bool.and_eq_true] at hp
  exact ⟨hm, by simpa using hp.2, hp.1⟩

theorem categoryJoinPublished_intro {s : Store} {p : Post} {c : Category}
    (hcid : p.categoryId = some c.id) (hfc : findCategoryById s c.id = some c)
    (hcpub : c.is_published = true) : categoryJoinPublished s p = true := by
  simp only [categoryJoinPublished, hcid, hfc]
  exact hcpub

theorem categoryJoinSlug_intro {s : Store} {p : Post} {c : Category} {slug : String}
    (hcid : p.categoryId = some c.id) (hfc : findCategoryById s c.id = some c)
    (hcslug : c.slug = slug) : categoryJoinSlug s p slug = true := by
  simp only [categoryJoinSlug, hcid, hfc]
  simp [hcslug]

theorem isPubliclyVisible_parts {s : Store} {p : Post} {now : Int}
    (h : isPubliclyVisible s p now = true) :
    p.is_published = true ∧ p.pub_date ≤ now := by
  unfold isPubliclyVisible at h
  rw [Bool.and_eq_true, Bool.and_eq_true] at h
  exact ⟨h.1.1, by simpa using h.1.2⟩

theorem mem_categoryQueryset {s : Store} (hw : s.wf) {slug : String} {c : Category}
    (hfound : findPublishedCategoryBySlug s slug = some c) {now : Int} {p : Post} :
    p ∈ categoryQueryset s c slug now ↔
      (p ∈ s.posts ∧ p.categoryId = some c.id ∧
        isPubliclyVisible s p now = true) := by
  obtain ⟨hcm, hcslug, hcpub⟩ := findPublishedCategoryBySlug_some hfound
  have hfc : findCategoryById s c.id = some c := findCategoryById_of_mem hw hcm
  unfold categoryQueryset
  rw [mem_orderByPubDateDesc, List.mem_filter, List.mem_filter]
  constructor
  · rintro ⟨⟨hm, hcat⟩, hpred⟩
    have hcid : p.categoryId = some c.id := by simpa using hcat
    rw [Bool.and_eq_true, Bool.and_eq_true] at hpred
    refine ⟨hm, hcid, ?_⟩
    exact isPubliclyVisible_of_parts hpred.1.2 (by simpa using hpred.1.1)
      (categoryJoinPublished_intro hcid hfc hcpub)
  · rintro ⟨hm, hcid, hvis⟩
    obtain ⟨h1, h2⟩ := isPubliclyVisible_parts hvis
    refine ⟨⟨hm, by simpa using hcid⟩, ?_⟩
    rw [Bool.and_eq_true, Bool.and_eq_true]
    exact ⟨⟨by simpa using h2, h1⟩, categoryJoinSlug_intro hcid hfc hcslug⟩

/-- Claim C9: `listCategoryFeed` 404s iff no published category bears
the slug; otherwise the returned page comes from exactly the posts of
that category satisfying the public-visibility predicate, ordered by
`pub_date` descending, with page size 10. -/
theorem C9_theorem (s : Store) (slug : String) (now : Int) (page : Option Int)
    (hw : s.wf) :
    (listCategoryFeed s slug now page = none ↔
      ∀ c ∈ s.categories, ¬(c.slug = slug ∧ c.is_published = true)) ∧
    (∀ c, findPublishedCategoryBySlug s slug = some c →
      (c ∈ s.categories ∧ c.slug = slug ∧ c.is_published = true) ∧
      listCategoryFeed s slug now page
        = some (c, getPage (categoryQueryset s c slug now) 10 page) ∧
      DescByPubDate (categoryQueryset s c slug now) ∧
      (getPage (categoryQueryset s c slug now) 10 page).length ≤ 10 ∧
      (∀ p, p ∈ categoryQueryset s c slug now ↔
        (p ∈ s.posts ∧ p.categoryId = some c.id ∧
          isPubliclyVisible s p now = true))) := by
  constructor
  · unfold listCategoryFeed
    cases h : findPublishedCategoryBySlug s slug with
    | none =>
      constructor
      · intro _ c hc hand
        rw [findPublishedCategoryBySlug, List.find?_eq_none] at h
        exact h c hc (by simp [hand.1, hand.2])
      · intro _; rfl
    | some c =>
      constructor
      · intro hcon; cases hcon
      · intro hall
        exfalso
        obtain ⟨hm, hslug, hpub⟩ := findPublishedCategoryBySlug_some h
        exact hall c hm ⟨hslug, hpub⟩
  · intro c hc
    refine ⟨findPublishedCategoryBySlug_some hc, ?_,
      orderByPubDateDesc_sorted _, getPage_length_le _ 10 page,
      fun p => mem_categoryQueryset hw hc⟩
    simp only [listCategoryFeed, hc]

/-- Claim C9 (witness): the theorem evaluated on `storeB` at slug
"news", time 5, no page parameter. -/
theorem C9_witness :
    listCategoryFeed storeB "news" 5 none
      = some (cNews, getPage (categoryQueryset storeB cNews "news" 5) 10 none) ∧
    DescByPubDate (categoryQueryset storeB cNews "news" 5) ∧
    (∀ p, p ∈ categoryQueryset storeB cNews "news" 5 ↔
      (p ∈ storeB.posts ∧ p.categoryId = some cNews.id ∧
        isPubliclyVisible storeB p 5 = true)) := by
  have h := (C9_theorem storeB "news" 5 none (by decide)).2 cNews (by decide)
  exact ⟨h.2.1, h.2.2.1, h.2.2.2.2⟩

/-- Claim C10: the global feed's publication cutoff is the module-load
time, reused on every request: with the store unchanged, two requests at
any two times return identical results, so a post whose `pub_date` lies
after load (but has passed by request time) is absent from the global
feed — while it IS in the per-request queryset of `listCategoryFeed`,
whose cutoff is recomputed on each call. -/
theorem C10_theorem (s : Store) (loadTime t1 t2 : Int) (viewer : Option User)
    (page : Option Int) (hw : s.wf) :
    listGlobalFeed s loadTime t1 viewer page
      = listGlobalFeed s loadTime t2 viewer page ∧
    (∀ p ∈ s.posts, ∀ c ∈ s.categories,
      p.categoryId = some c.id → c.is_published = true →
      p.is_published = true → loadTime < p.pub_date → p.pub_date ≤ t2 →
      (p ∉ indexQueryset s loadTime ∧ p ∈ categoryQueryset s c c.slug t2)) := by
  refine ⟨rfl, ?_⟩
  intro p hp c hc hcid hcpub hppub hlt hle
  have hfc := findCategoryById_of_mem hw hc
  constructor
  · intro hmem
    have hm := mem_indexQueryset.mp hmem
    have := hm.2.1
    omega
  · unfold categoryQueryset
    rw [mem_orderByPubDateDesc, List.mem_filter, List.mem_filter]
    refine ⟨⟨hp, by simpa using hcid⟩, ?_⟩
    rw [Bool.and_eq_true, Bool.and_eq_true]
    exact ⟨⟨by simpa using hle, hppub⟩, categoryJoinSlug_intro hcid hfc rfl⟩

/-- Claim C10 (witness): in `storeA`, `futurePost` (`pub_date = 10`)
passed its publication date after load time 5; at request time 20 the
global feed still excludes it while the category queryset includes it,
and the global feed's output at request times 6 and 20 is identical. -/
theorem C10_witness :
    listGlobalFeed storeA 5 6 none none = listGlobalFeed storeA 5 20 none none ∧
    (futurePost ∉ indexQueryset storeA 5 ∧
      futurePost ∈ categoryQueryset storeA cNews cNews.slug 20) := by
  have h := C10_theorem storeA 5 6 20 none none (by decide)
  exact ⟨h.1, h.2 futurePost (by decide) cNews (by decide) rfl rfl rfl
    (by decide) (by decide)⟩

end Blogicum
